/-
Verification of the stock-data feature pipeline (src/main.rs, src/stock_data.rs).

The pipeline's floating-point values are modelled as rationals (`ℚ`); the
categorizer additionally needs the IEEE comparison behaviour on NaN and the
infinities, so its argument type `FVal` adjoins those values to `ℚ` with the
IEEE ordering (every comparison against NaN is false).  Rust `HashMap`s are
modelled as association lists; the list order stands for the (unspecified)
iteration order of the map, which the source code observes in the join and
feature-build loops.
-/
import Mathlib

set_option autoImplicit false

namespace StockPipeline

/-- A floating-point value as the categorizer sees it: finite (exact, as a
rational), an infinity, or NaN. -/
inductive FVal where
  | nan : FVal
  | pinf : FVal
  | ninf : FVal
  | fin : ℚ → FVal
  deriving DecidableEq, Repr

/-- IEEE `<` on modelled floats: any comparison involving NaN is false. -/
def FVal.flt : FVal → FVal → Bool
  | .nan, _ => false
  | _, .nan => false
  | .ninf, .ninf => false
  | .ninf, _ => true
  | _, .ninf => false
  | .pinf, _ => false
  | .fin _, .pinf => true
  | .fin a, .fin b => decide (a < b)

/-- The categorizer `categorize_price_change` (src/main.rs lines 74-82): a chain of match
guards `pc < -50.0`, `pc < 0.0`, `pc < 50.0`, `pc > 50.0`, then a catch-all
arm returning 3. -/
def categorize_price_change (price_change : FVal) : ℕ :=
  if FVal.flt price_change (.fin (-50)) then 0
  else if FVal.flt price_change (.fin 0) then 1
  else if FVal.flt price_change (.fin 50) then 2
  else if FVal.flt (.fin 50) price_change then 3
  else 3

/-- The categorizer applied to a finite (rational) price change. -/
def categorizeQ (q : ℚ) : ℕ := categorize_price_change (FVal.fin q)

/-- The record type `StockData` (src/stock_data.rs lines 5-20). -/
structure StockData where
  ticker : String
  year : ℕ
  assets : ℚ
  cash : ℚ
  equity : ℚ
  profit : ℚ
  revenue : ℚ
  price_change : ℚ
  profit_margin : ℚ
  roa : ℚ
  change_in_revenue : Option ℚ
  change_in_profit_margin : Option ℚ
  change_in_roa : Option ℚ
  deriving DecidableEq, Repr

/-- A metric map `ticker → (year → value)`, as an association list; the list
order models the `HashMap` iteration order. -/
def MetricMap : Type := List (String × List (ℕ × ℚ))

/-- The lookup `series.get(ticker).and_then(|y| y.get(&year)).cloned().unwrap_or(0.0)`
(src/stock_data.rs lines 119-127). -/
def getOr0 (m : MetricMap) (ticker : String) (year : ℕ) : ℚ :=
  ((m.lookup ticker).bind fun ys => ys.lookup year).getD 0

/-- Construction of one joined record (src/stock_data.rs lines 118-155),
including the zero-division guards on `profit_margin` and `roa`. -/
def mkStockData (cash equity profit revenue price_changes : MetricMap)
    (ticker : String) (year : ℕ) (asset_value : ℚ) : StockData :=
  let cash_value := getOr0 cash ticker year
  let equity_value := getOr0 equity ticker year
  let profit_value := getOr0 profit ticker year
  let revenue_value := getOr0 revenue ticker year
  let price_change := getOr0 price_changes ticker year
  let profit_margin := if revenue_value ≠ 0 then profit_value / revenue_value else 0
  let roa := if asset_value ≠ 0 then profit_margin * revenue_value / asset_value else 0
  { ticker := ticker
    year := year
    assets := asset_value
    cash := cash_value
    equity := equity_value
    profit := profit_value
    revenue := revenue_value
    price_change := price_change
    profit_margin := profit_margin
    roa := roa
    change_in_revenue := none
    change_in_profit_margin := none
    change_in_roa := none }

/-- The body of the delta loop (src/stock_data.rs lines 163-165): overwrite
the current record's three delta fields with current minus previous. -/
def setDeltas (current previous : StockData) : StockData :=
  { current with
    change_in_revenue := some (current.revenue - previous.revenue),
    change_in_profit_margin := some (current.profit_margin - previous.profit_margin),
    change_in_roa := some (current.roa - previous.roa) }

/-- The delta loop `for i in 1..stock_data.len()` from index 1 on, threading
the previous (unmodified-core) record. -/
def applyDeltasAux (previous : StockData) : List StockData → List StockData
  | [] => []
  | current :: rest => setDeltas current previous :: applyDeltasAux current rest

/-- The delta loop (src/stock_data.rs lines 158-166): index 0 is untouched,
each later record's deltas are taken against its list predecessor. -/
def applyDeltas : List StockData → List StockData
  | [] => []
  | first :: rest => first :: applyDeltasAux first rest

/-- The combine stage of `process_stock_data` (src/stock_data.rs lines
113-169): one record per `(ticker, year)` of the assets series, in the
iteration order of the assets map and of each ticker's year map, followed by
the in-place delta pass. -/
def combine_stock_data (assets cash equity profit revenue price_changes : MetricMap) :
    List (String × List StockData) :=
  assets.map fun ty =>
    (ty.1, applyDeltas (ty.2.map fun ya =>
      mkStockData cash equity profit revenue price_changes ty.1 ya.1 ya.2))

/-! ### Price-change calculator (src/stock_data.rs lines 49-102) -/

/-- The bucketing loop (src/stock_data.rs lines 81-90): observations with
month ≤ 2 are pushed to `first_month_prices`, those with month ≥ 11 to
`last_month_prices`, every other month is dropped. -/
def splitBuckets : List (ℕ × ℚ) → List ℚ × List ℚ
  | [] => ([], [])
  | (month, price) :: rest =>
    let fl := splitBuckets rest
    if month ≤ 2 then (price :: fl.1, fl.2)
    else if 11 ≤ month then (fl.1, price :: fl.2)
    else fl

/-- Arithmetic mean of a price list (`sum / len`). -/
def avg (l : List ℚ) : ℚ := l.sum / l.length

/-- The per-(ticker, year) percent change (src/stock_data.rs lines 92-97):
produced only when both buckets are non-empty. -/
def yearChange (prices : List (ℕ × ℚ)) : Option ℚ :=
  let fl := splitBuckets prices
  if fl.1 ≠ [] ∧ fl.2 ≠ [] then
    some ((avg fl.2 - avg fl.1) / avg fl.1 * 100)
  else none

/-- The aggregation loop of `calculate_price_changes` (src/stock_data.rs
lines 76-101) over already-grouped observations
`ticker → (year → [(month, price)])`. -/
def calculate_price_changes (data : List (String × List (ℕ × List (ℕ × ℚ)))) : MetricMap :=
  data.map fun ty =>
    (ty.1, ty.2.filterMap fun yp => (yearChange yp.2).map fun c => (yp.1, c))

/-! ### Wide-CSV loader (src/stock_data.rs lines 27-46)

A file is modelled at the point the `csv` reader hands it to `read_csv`: an
open failure (`Except.error` outside), or a list of per-record results, each
either a parsed record (list of cells) or a reader error — the source's
`let record = result?` propagates the latter.  Numeric cell parsing
(`value.parse::<f64>()`) is abstracted as a function `parseF : String →
Option ℚ`; the source's `.unwrap_or(0.0)` becomes `.getD 0`. -/

/-- The map insert `HashMap::insert` on an association list: the new binding shadows and
removes any previous binding of the key. -/
def insertKV {κ α : Type} [DecidableEq κ] (l : List (κ × α)) (k : κ) (v : α) :
    List (κ × α) :=
  (k, v) :: l.filter fun p => ¬(p.1 = k)

/-- The inner cell loop of `read_csv` (src/stock_data.rs lines 37-42):
`for (i, value) in record.iter().skip(1).enumerate()` inserting
`2022 - i ↦ parse(value).unwrap_or(0.0)`. -/
def buildYearsGo (parseF : String → Option ℚ) : ℕ → List String → List (ℕ × ℚ) →
    List (ℕ × ℚ)
  | _, [], years => years
  | i, cell :: rest, years =>
    buildYearsGo parseF (i + 1) rest (insertKV years (2022 - i) ((parseF cell).getD 0))

/-- The year map built from one record's data cells (the cells after the
ticker column). -/
def buildYears (parseF : String → Option ℚ) (cells : List String) : List (ℕ × ℚ) :=
  buildYearsGo parseF 0 cells []

/-- One iteration of the record loop of `read_csv` (src/stock_data.rs lines
31-44): skip the row when the ticker cell is missing or empty, otherwise
insert the row's year map under the ticker. -/
def readCsvStep (parseF : String → Option ℚ)
    (data : List (String × List (ℕ × ℚ))) (record : List String) :
    List (String × List (ℕ × ℚ)) :=
  let ticker := record.head?.getD ""
  if ticker = "" then data
  else insertKV data ticker (buildYears parseF record.tail)

/-- The record loop of `read_csv`: `let record = result?` propagates any
per-record reader error; successful records are folded with `readCsvStep`. -/
def readCsvGo (parseF : String → Option ℚ) :
    List (Except String (List String)) → List (String × List (ℕ × ℚ)) →
    Except String (List (String × List (ℕ × ℚ)))
  | [], data => .ok data
  | .error e :: _, _ => .error e
  | .ok record :: rest, data => readCsvGo parseF rest (readCsvStep parseF data record)

/-- The loader `read_csv` (src/stock_data.rs lines 27-46): the outer `Except` is the
`from_path` open result, propagated by `?`. -/
def read_csv (parseF : String → Option ℚ)
    (file : Except String (List (Except String (List String)))) :
    Except String (List (String × List (ℕ × ℚ))) :=
  match file with
  | .error e => .error e
  | .ok records => readCsvGo parseF records []

/-! ### Feature/label builder (src/main.rs lines 9-72) -/

/-- The feature row built for a surviving `(previous, current)` pair
(src/main.rs lines 28-63), including the cash/assets and equity/assets
guards; `unwrap()` on the current record's delta fields is modelled by
`.getD 0` (in pipeline output those fields are always `some` there). -/
def featureRow (previous current : StockData) : List ℚ :=
  let delta_revenue := current.change_in_revenue.getD 0
  let delta_profit_margin := current.change_in_profit_margin.getD 0
  let delta_roa := current.change_in_roa.getD 0
  let current_cash_to_assets := if current.assets ≠ 0 then current.cash / current.assets else 0
  let previous_cash_to_assets :=
    if previous.assets ≠ 0 then previous.cash / previous.assets else 0
  let delta_cash_to_assets := current_cash_to_assets - previous_cash_to_assets
  let current_equity_to_assets :=
    if current.assets ≠ 0 then current.equity / current.assets else 0
  let previous_equity_to_assets :=
    if previous.assets ≠ 0 then previous.equity / previous.assets else 0
  let delta_equity_to_assets := current_equity_to_assets - previous_equity_to_assets
  [delta_revenue, delta_profit_margin, delta_roa, delta_cash_to_assets,
    delta_equity_to_assets, delta_revenue * delta_profit_margin]

/-- The per-ticker loop of `prepare_dataset` (src/main.rs lines 16-66):
`for i in 1..records.len()`, skipping when `i == 1` or any of the previous
record's delta fields is `None`, otherwise pushing the feature row and the
categorized label of the same record in the same iteration (modelled as one
pair). -/
def prepareTicker (records : List StockData) : List (List ℚ × ℕ) :=
  (List.range' 1 (records.length - 1)).filterMap fun i =>
    match records[i]?, records[i-1]? with
    | some current, some previous =>
      if i = 1 ∨ previous.change_in_revenue = none ∨
          previous.change_in_profit_margin = none ∨ previous.change_in_roa = none
      then none
      else some (featureRow previous current, categorizeQ current.price_change)
    | _, _ => none

/-- The emitted (feature row, label) pairs over all tickers, in map
iteration order. -/
def preparePairs (d : List (String × List StockData)) : List (List ℚ × ℕ) :=
  (d.map fun p => prepareTicker p.2).flatten

/-- The builder `prepare_dataset` (src/main.rs lines 9-72): the parallel feature matrix
and label vector. -/
def prepare_dataset (d : List (String × List StockData)) : List (List ℚ) × List ℕ :=
  ((preparePairs d).map Prod.fst, (preparePairs d).map Prod.snd)

/-- The transform of `process_stock_data` after the files are read
(src/stock_data.rs lines 105-171): price aggregation plus the combine
stage. -/
def process_stock_data (assets cash equity profit revenue : MetricMap)
    (priceData : List (String × List (ℕ × List (ℕ × ℚ)))) :
    List (String × List StockData) :=
  combine_stock_data assets cash equity profit revenue (calculate_price_changes priceData)

/-- The composed in-memory pipeline: join and annotate, then build features
and labels. -/
def fullPipeline (assets cash equity profit revenue : MetricMap)
    (priceData : List (String × List (ℕ × List (ℕ × ℚ)))) : List (List ℚ) × List ℕ :=
  prepare_dataset (process_stock_data assets cash equity profit revenue priceData)

/-- The loop-range characterization of `prepareTicker` used by the claims:
the index set written as the full range with an explicit `2 ≤ i` condition
and the predecessor's delta fields required populated. -/
def specPrepareTicker (records : List StockData) : List (List ℚ × ℕ) :=
  (List.range records.length).filterMap fun i =>
    match records[i]?, records[i-1]? with
    | some current, some previous =>
      if 2 ≤ i ∧ previous.change_in_revenue ≠ none ∧
          previous.change_in_profit_margin ≠ none ∧ previous.change_in_roa ≠ none
      then some (featureRow previous current, categorizeQ current.price_change)
      else none
    | _, _ => none

/-! ### Association-list lookup lemmas -/

section LookupLemmas

variable {κ α : Type} [DecidableEq κ] [BEq κ] [LawfulBEq κ]

theorem lookup_filter_ne (l : List (κ × α)) (t k : κ) (h : t ≠ k) :
    (l.filter fun p => ¬(p.1 = k)).lookup t = l.lookup t := by
  induction l with
  | nil => rfl
  | cons p rest ih =>
    obtain ⟨pk, pv⟩ := p
    by_cases hk : pk = k
    · have hbeq : (t == pk) = false := by
        rw [hk]
        simpa using h
      rw [List.filter_cons_of_neg (by simpa using hk)]
      rw [ih]
      simp [List.lookup, hbeq]
    · rw [List.filter_cons_of_pos (by simpa using hk)]
      by_cases ht : t = pk
      · simp [List.lookup, ht]
      · have hbeq : (t == pk) = false := by simpa using ht
        simp only [List.lookup, hbeq]
        exact ih

theorem lookup_insertKV_self (l : List (κ × α)) (k : κ) (v : α) :
    (insertKV l k v).lookup k = some v := by
  simp [insertKV, List.lookup]

theorem lookup_insertKV_ne (l : List (κ × α)) (k t : κ) (v : α) (h : t ≠ k) :
    (insertKV l k v).lookup t = l.lookup t := by
  have hbeq : (t == k) = false := by simp [h]
  simp only [insertKV, List.lookup, hbeq]
  exact lookup_filter_ne l t k h

omit [DecidableEq κ] in
theorem lookup_mem {l : List (κ × α)} {k : κ} {v : α} (h : l.lookup k = some v) :
    (k, v) ∈ l := by
  induction l with
  | nil => simp [List.lookup] at h
  | cons p rest ih =>
    obtain ⟨pk, pv⟩ := p
    rcases hbeq : (k == pk) with _ | _
    · simp only [List.lookup, hbeq] at h
      exact List.mem_cons_of_mem _ (ih h)
    · simp only [List.lookup, hbeq] at h
      have hk : k = pk := by simpa using hbeq
      have hv : pv = v := by injection h
      rw [← hk, ← hv]
      exact List.mem_cons_self _ _

end LookupLemmas

/-! ### Claim C2: categorizer totality and boundaries -/

/-- The categorizer's guard chain with the IEEE comparisons specialised to a
finite input. -/
theorem categorizeQ_eq (q : ℚ) :
    categorizeQ q =
      if q < -50 then 0 else if q < 0 then 1 else if q < 50 then 2
        else if 50 < q then 3 else 3 := by
  simp [categorizeQ, categorize_price_change, FVal.flt]

/-- C2: `categorize_price_change` is total over all finite percent-change
inputs with no error case, maps inputs `< -50` to 0, `[-50, 0)` to 1,
`[0, 50)` to 2 and `≥ 50` to 3; exactly `50` fails the `pc > 50.0` guard and
falls through to the catch-all arm yielding 3; `categorizeQ (-50) = 1` and
`categorizeQ 50 = 3`. -/
theorem categorize_total_and_boundaries :
    (∀ q : ℚ, (q < -50 → categorizeQ q = 0)
      ∧ (-50 ≤ q → q < 0 → categorizeQ q = 1)
      ∧ (0 ≤ q → q < 50 → categorizeQ q = 2)
      ∧ (50 ≤ q → categorizeQ q = 3))
    ∧ categorizeQ (-50) = 1 ∧ categorizeQ 50 = 3
    ∧ FVal.flt (.fin 50) (.fin 50) = false := by
  refine ⟨fun q => ⟨?_, ?_, ?_, ?_⟩, by decide, by decide, by decide⟩
  · intro h
    rw [categorizeQ_eq, if_pos h]
  · intro h1 h2
    rw [categorizeQ_eq, if_neg (by linarith), if_pos h2]
  · intro h1 h2
    rw [categorizeQ_eq, if_neg (by linarith), if_neg (by linarith), if_pos h2]
  · intro h
    rw [categorizeQ_eq, if_neg (by linarith), if_neg (by linarith),
      if_neg (by linarith)]
    split_ifs <;> rfl

/-- Witness for C2 at several concrete inputs. -/
theorem categorize_total_and_boundaries_witness :
    categorizeQ (-60) = 0 ∧ categorizeQ (-30) = 1 ∧ categorizeQ 10 = 2 ∧
      categorizeQ 70 = 3 :=
  ⟨(categorize_total_and_boundaries.1 (-60)).1 (by norm_num),
   ((categorize_total_and_boundaries.1 (-30)).2.1 (by norm_num) (by norm_num)),
   ((categorize_total_and_boundaries.1 10).2.2.1 (by norm_num) (by norm_num)),
   ((categorize_total_and_boundaries.1 70).2.2.2 (by norm_num))⟩

/-! ### Shape of the emitted (feature row, label) pairs -/

/-- Every pair emitted by the per-ticker loop comes from a consecutive
`(previous, current)` pair at an index `i ≥ 2` whose predecessor has all
three delta fields populated, and couples the feature row with the label of
the same `current` record. -/
theorem mem_prepareTicker {records : List StockData} {pr : List ℚ × ℕ}
    (h : pr ∈ prepareTicker records) :
    ∃ i current previous, records[i]? = some current ∧ records[i-1]? = some previous ∧
      2 ≤ i ∧ previous.change_in_revenue ≠ none ∧
      previous.change_in_profit_margin ≠ none ∧ previous.change_in_roa ≠ none ∧
      pr = (featureRow previous current, categorizeQ current.price_change) := by
  simp only [prepareTicker, List.mem_filterMap] at h
  obtain ⟨i, hi, hfi⟩ := h
  have h1 : 1 ≤ i := by
    rw [List.mem_range'] at hi
    obtain ⟨j, hj, rfl⟩ := hi
    omega
  rcases hcur : records[i]? with _ | current
  · rw [hcur] at hfi
    simp at hfi
  rcases hprev : records[i-1]? with _ | previous
  · rw [hcur, hprev] at hfi
    simp at hfi
  rw [hcur, hprev] at hfi
  dsimp only at hfi
  by_cases hc : i = 1 ∨ previous.change_in_revenue = none ∨
      previous.change_in_profit_margin = none ∨ previous.change_in_roa = none
  · rw [if_pos hc] at hfi
    exact absurd hfi (by simp)
  · rw [if_neg hc] at hfi
    push_neg at hc
    obtain ⟨hne1, hr, hm, ha⟩ := hc
    exact ⟨i, current, previous, hcur, hprev, by omega, hr, hm, ha,
      (Option.some_inj.mp hfi).symm⟩

/-- Every pair of the whole dataset comes from some ticker's record list. -/
theorem mem_preparePairs {d : List (String × List StockData)} {pr : List ℚ × ℕ}
    (h : pr ∈ preparePairs d) :
    ∃ t recs, (t, recs) ∈ d ∧ pr ∈ prepareTicker recs := by
  simp only [preparePairs, List.mem_flatten, List.mem_map] at h
  obtain ⟨l, ⟨p, hp, rfl⟩, hpr⟩ := h
  exact ⟨p.1, p.2, by simpa using hp, hpr⟩

/-! ### Claim C8: categorizer safety on non-finite inputs -/

/-- C8: for every modelled float input, including NaN and the infinities,
`categorize_price_change` returns a value in `{0,1,2,3}`; NaN fails every
guard and falls to the catch-all arm yielding 3; consequently every label in
the emitted label vector is in range. -/
theorem categorize_nonfinite_safe :
    (∀ v : FVal, categorize_price_change v ≤ 3)
    ∧ categorize_price_change .nan = 3
    ∧ categorize_price_change .pinf = 3
    ∧ categorize_price_change .ninf = 0
    ∧ (∀ d lab, lab ∈ (prepare_dataset d).2 → lab ≤ 3) := by
  refine ⟨?_, by decide, by decide, by decide, ?_⟩
  · intro v
    unfold categorize_price_change
    split_ifs <;> omega
  · intro d lab hlab
    simp only [prepare_dataset, List.mem_map] at hlab
    obtain ⟨pr, hpr, rfl⟩ := hlab
    obtain ⟨t, recs, _, hmem⟩ := mem_preparePairs hpr
    obtain ⟨i, c, p, _, _, _, _, _, _, hpr_eq⟩ := mem_prepareTicker hmem
    rw [hpr_eq]
    unfold categorizeQ categorize_price_change
    split_ifs <;> omega

/-- A concrete three-year ticker driving the witnesses: assets series. -/
def exAssets : MetricMap := [("A", [(2020, 1), (2021, 1), (2022, 1)])]

/-- A concrete three-year ticker driving the witnesses: revenue series. -/
def exRevenue : MetricMap := [("A", [(2020, 10), (2021, 20), (2022, 40)])]

/-- The joined, delta-annotated dataset of the concrete example. -/
def exData : List (String × List StockData) :=
  process_stock_data exAssets [] [] [] exRevenue []

/-- Witness for C8: the one label the concrete example emits is in range. -/
theorem categorize_nonfinite_safe_witness : (2 : ℕ) ≤ 3 :=
  categorize_nonfinite_safe.2.2.2.2 exData 2 (by decide)

/-! ### Claim C3: zero-division guards of the join -/

/-- The delta pass only writes the three delta fields: every output record
shares its non-delta fields with a record of the input list. -/
theorem mem_applyDeltasAux {l : List StockData} {prev r : StockData}
    (h : r ∈ applyDeltasAux prev l) :
    ∃ s ∈ l, r.assets = s.assets ∧ r.profit = s.profit ∧ r.revenue = s.revenue ∧
      r.profit_margin = s.profit_margin ∧ r.roa = s.roa := by
  induction l generalizing prev with
  | nil => simp [applyDeltasAux] at h
  | cons c rest ih =>
    simp only [applyDeltasAux, List.mem_cons] at h
    rcases h with h | h
    · exact ⟨c, List.mem_cons_self _ _, by rw [h]; exact ⟨rfl, rfl, rfl, rfl, rfl⟩⟩
    · obtain ⟨s, hs, hcore⟩ := ih h
      exact ⟨s, List.mem_cons_of_mem _ hs, hcore⟩

/-- Non-delta fields survive the whole delta pass. -/
theorem mem_applyDeltas {l : List StockData} {r : StockData}
    (h : r ∈ applyDeltas l) :
    ∃ s ∈ l, r.assets = s.assets ∧ r.profit = s.profit ∧ r.revenue = s.revenue ∧
      r.profit_margin = s.profit_margin ∧ r.roa = s.roa := by
  cases l with
  | nil => simp [applyDeltas] at h
  | cons c rest =>
    simp only [applyDeltas, List.mem_cons] at h
    rcases h with h | h
    · exact ⟨c, List.mem_cons_self _ _, by rw [h]; exact ⟨rfl, rfl, rfl, rfl, rfl⟩⟩
    · obtain ⟨s, hs, hcore⟩ := mem_applyDeltasAux h
      exact ⟨s, List.mem_cons_of_mem _ hs, hcore⟩

/-- C3: in every joined record, `profit_margin = 0` whenever `revenue = 0`
and `roa = 0` whenever `assets = 0`; because `roa` is computed through the
guarded `profit_margin`, `roa = 0` whenever `revenue = 0` even when
`assets ≠ 0`; and when both are non-zero, `roa = profit / assets`. -/
theorem join_zero_guards : ∀ (assets cash equity profit revenue prices : MetricMap)
    (t : String) (recs : List StockData) (r : StockData),
    (t, recs) ∈ combine_stock_data assets cash equity profit revenue prices →
    r ∈ recs →
    (r.revenue = 0 → r.profit_margin = 0)
    ∧ (r.assets = 0 → r.roa = 0)
    ∧ (r.revenue = 0 → r.roa = 0)
    ∧ (r.revenue ≠ 0 → r.assets ≠ 0 → r.roa = r.profit / r.assets) := by
  intro assets cash equity profit revenue prices t recs r hmem hr
  simp only [combine_stock_data, List.mem_map] at hmem
  obtain ⟨ty, hty, heq⟩ := hmem
  cases heq
  obtain ⟨s, hs, ha, hp, hv, hm, hroa⟩ := mem_applyDeltas hr
  simp only [List.mem_map] at hs
  obtain ⟨ya, hya, rfl⟩ := hs
  rw [ha, hp, hv, hm, hroa]
  simp only [mkStockData]
  refine ⟨?_, ?_, ?_, ?_⟩
  · intro h0
    rw [if_neg (by simpa using h0)]
  · intro h0
    rw [if_neg (by simpa using h0)]
  · intro h0
    split_ifs with h1 h2
    · exact absurd h0 h2
    · simp
    · rfl
  · intro hv0 ha0
    rw [if_pos hv0, if_pos ha0, div_mul_cancel₀ _ hv0]

/-- The single joined record of the concrete C3 example: assets 5,
revenue 10, everything else defaulted to 0. -/
def exRecB : StockData :=
  { ticker := "B", year := 2022, assets := 5, cash := 0, equity := 0, profit := 0,
    revenue := 10, price_change := 0, profit_margin := 0, roa := 0,
    change_in_revenue := none, change_in_profit_margin := none,
    change_in_roa := none }

/-- Witness for C3 at the concrete one-record join. -/
theorem join_zero_guards_witness :
    (exRecB.revenue = 0 → exRecB.profit_margin = 0)
    ∧ (exRecB.assets = 0 → exRecB.roa = 0)
    ∧ (exRecB.revenue = 0 → exRecB.roa = 0)
    ∧ (exRecB.revenue ≠ 0 → exRecB.assets ≠ 0 →
        exRecB.roa = exRecB.profit / exRecB.assets) :=
  join_zero_guards [("B", [(2022, 5)])] [] [] [] [("B", [(2022, 10)])] []
    "B" [exRecB] exRecB
    (by rw [show combine_stock_data [("B", [(2022, 5)])] [] [] [] [("B", [(2022, 10)])] []
          = [("B", [exRecB])] from by
            norm_num [combine_stock_data, applyDeltas, applyDeltasAux, mkStockData,
              getOr0, exRecB, List.lookup]]
        exact List.mem_cons_self _ _)
    (List.mem_cons_self _ _)

/-! ### Claim C4: emission condition and row/label alignment -/

/-- The source loop (`for i in 1..len`, skip on `i == 1` or unpopulated
predecessor deltas) emits exactly at the indices `i ≥ 2` whose predecessor
has all three delta fields populated. -/
theorem prepareTicker_eq_spec (records : List StockData) :
    prepareTicker records = specPrepareTicker records := by
  unfold prepareTicker specPrepareTicker
  rw [List.range_eq_range']
  cases hn : records.length with
  | zero => rfl
  | succ n =>
    have h0 : ∃ c, records[0]? = some c := by
      rcases hc : records[0]? with _ | c
      · rw [List.getElem?_eq_none_iff] at hc
        omega
      · exact ⟨c, rfl⟩
    obtain ⟨c, hc⟩ := h0
    rw [List.range'_succ, List.filterMap_cons]
    have hz : (0 : ℕ) - 1 = 0 := rfl
    rw [hz, hc]
    dsimp only
    rw [if_neg (fun hcond => absurd hcond.1 (by omega))]
    have hsn : n + 1 - 1 = n := rfl
    rw [hsn]
    refine List.filterMap_congr fun i hi => ?_
    have h1 : 1 ≤ i := by
      rw [List.mem_range'] at hi
      obtain ⟨j, hj, rfl⟩ := hi
      omega
    rcases hcur : records[i]? with _ | current
    · rfl
    rcases hprev : records[i-1]? with _ | previous
    · rfl
    dsimp only
    by_cases hcond : i = 1 ∨ previous.change_in_revenue = none ∨
        previous.change_in_profit_margin = none ∨ previous.change_in_roa = none
    · rw [if_pos hcond, if_neg]
      rintro ⟨h2, ha, hb, hcc⟩
      rcases hcond with h | h | h | h
      · omega
      · exact ha h
      · exact hb h
      · exact hcc h
    · push_neg at hcond
      obtain ⟨hne1, ha, hb, hcc⟩ := hcond
      rw [if_neg (by tauto), if_pos ⟨by omega, ha, hb, hcc⟩]

/-- A ticker with fewer than three records emits nothing. -/
theorem prepareTicker_short (records : List StockData)
    (h : records.length < 3) : prepareTicker records = [] := by
  unfold prepareTicker
  have h2 : records.length - 1 = 0 ∨ records.length - 1 = 1 := by omega
  rcases h2 with h2 | h2 <;> rw [h2]
  · rfl
  · show List.filterMap _ [1] = []
    rcases hcur : records[1]? with _ | current <;>
      rcases hprev : records[0]? with _ | previous <;>
        simp [hcur, hprev]

/-- C4: a row is emitted for index `i` exactly when `i ≥ 2` and the
predecessor's three delta fields are all populated; a ticker with fewer than
three records contributes no rows; the feature matrix and label vector are
the two projections of one pair list, and every pair couples the feature
row with the label of the same current record. -/
theorem feature_builder_shape :
    (∀ records, prepareTicker records = specPrepareTicker records)
    ∧ (∀ records, records.length < 3 → prepareTicker records = [])
    ∧ (∀ (d : List (String × List StockData)) (k : ℕ),
        (prepare_dataset d).1[k]? = ((preparePairs d)[k]?).map Prod.fst
        ∧ (prepare_dataset d).2[k]? = ((preparePairs d)[k]?).map Prod.snd)
    ∧ (∀ (d : List (String × List StockData)) (pr : List ℚ × ℕ), pr ∈ preparePairs d → ∃ t recs, (t, recs) ∈ d ∧
        ∃ i current previous, recs[i]? = some current ∧ recs[i-1]? = some previous ∧
          2 ≤ i ∧ previous.change_in_revenue ≠ none ∧
          previous.change_in_profit_margin ≠ none ∧ previous.change_in_roa ≠ none ∧
          pr = (featureRow previous current, categorizeQ current.price_change)) := by
  refine ⟨prepareTicker_eq_spec, prepareTicker_short, ?_, ?_⟩
  · intro d k
    constructor <;> simp [prepare_dataset, List.getElem?_map]
  · intro d pr hpr
    obtain ⟨t, recs, hmem, hin⟩ := mem_preparePairs hpr
    obtain ⟨i, current, previous, h⟩ := mem_prepareTicker hin
    exact ⟨t, recs, hmem, i, current, previous, h⟩

/-- Concrete records mirroring the shape the pipeline produces: three years
of ticker A with the later two carrying populated deltas. -/
def exRec0 : StockData :=
  { ticker := "A", year := 2020, assets := 1, cash := 0, equity := 0, profit := 0,
    revenue := 10, price_change := 0, profit_margin := 0, roa := 0,
    change_in_revenue := none, change_in_profit_margin := none,
    change_in_roa := none }

/-- Year 2021 of the concrete example, deltas populated. -/
def exRec1 : StockData :=
  { exRec0 with
    year := 2021, revenue := 20, change_in_revenue := some 10,
    change_in_profit_margin := some 0, change_in_roa := some 0 }

/-- Year 2022 of the concrete example, deltas populated. -/
def exRec2 : StockData :=
  { exRec0 with
    year := 2022, revenue := 40, change_in_revenue := some 20,
    change_in_profit_margin := some 0, change_in_roa := some 0 }

/-- The concrete dataset used by the C4 and C7 witnesses. -/
def exD : List (String × List StockData) := [("A", [exRec0, exRec1, exRec2])]

/-- Witness for C4: the empty ticker emits nothing, and the one pair of the
concrete dataset has the stated shape. -/
theorem feature_builder_shape_witness :
    prepareTicker [] = []
    ∧ (∃ t recs, (t, recs) ∈ exD ∧
        ∃ i current previous, recs[i]? = some current ∧ recs[i-1]? = some previous ∧
          2 ≤ i ∧ previous.change_in_revenue ≠ none ∧
          previous.change_in_profit_margin ≠ none ∧ previous.change_in_roa ≠ none ∧
          (featureRow exRec1 exRec2, categorizeQ exRec2.price_change) =
            (featureRow previous current, categorizeQ current.price_change)) :=
  ⟨feature_builder_shape.2.1 [] (by norm_num),
   feature_builder_shape.2.2.2 exD (featureRow exRec1 exRec2, categorizeQ exRec2.price_change)
     (by rw [show preparePairs exD =
           [(featureRow exRec1 exRec2, categorizeQ exRec2.price_change)] from rfl]
         exact List.mem_cons_self _ _)⟩

/-! ### Claim C5: price-change bucketing and entry condition -/

/-- The bucketing loop splits observations exactly by the month predicates:
early bucket = months ≤ 2, late bucket = months ≥ 11, order preserved. -/
theorem splitBuckets_eq (prices : List (ℕ × ℚ)) :
    splitBuckets prices =
      ((prices.filter fun mp => mp.1 ≤ 2).map Prod.snd,
       (prices.filter fun mp => 11 ≤ mp.1).map Prod.snd) := by
  induction prices with
  | nil => rfl
  | cons mp rest ih =>
    obtain ⟨m, p⟩ := mp
    simp only [splitBuckets, ih]
    by_cases h1 : m ≤ 2
    · rw [List.filter_cons_of_pos (by simpa using h1),
        List.filter_cons_of_neg (by simp; omega)]
      simp [h1]
    · by_cases h2 : 11 ≤ m
      · rw [List.filter_cons_of_neg (by simpa using h1),
          List.filter_cons_of_pos (by simpa using h2)]
        simp [h1, h2]
      · rw [List.filter_cons_of_neg (by simpa using h1),
          List.filter_cons_of_neg (by simpa using h2)]
        simp [h1, h2]

/-- C5: for every observation list of one (ticker, year), months ≤ 2 go to
the early bucket, months ≥ 11 to the late bucket, all other months are
discarded, and a percent change `(avg late − avg early) / avg early × 100`
is produced iff both buckets are non-empty. -/
theorem price_change_entry_iff : ∀ prices : List (ℕ × ℚ),
    (splitBuckets prices).1 = (prices.filter fun mp => mp.1 ≤ 2).map Prod.snd
    ∧ (splitBuckets prices).2 = (prices.filter fun mp => 11 ≤ mp.1).map Prod.snd
    ∧ (∀ c, yearChange prices = some c ↔
        ((splitBuckets prices).1 ≠ [] ∧ (splitBuckets prices).2 ≠ [] ∧
          c = (avg (splitBuckets prices).2 - avg (splitBuckets prices).1) /
                avg (splitBuckets prices).1 * 100))
    ∧ (yearChange prices = none ↔
        ((splitBuckets prices).1 = [] ∨ (splitBuckets prices).2 = [])) := by
  intro prices
  refine ⟨(splitBuckets_eq prices).symm ▸ rfl, (splitBuckets_eq prices).symm ▸ rfl, ?_, ?_⟩
  · intro c
    unfold yearChange
    dsimp only
    split_ifs with h
    · constructor
      · intro heq
        exact ⟨h.1, h.2, (Option.some_inj.mp heq).symm⟩
      · rintro ⟨-, -, rfl⟩
        rfl
    · push_neg at h
      constructor
      · intro heq
        exact absurd heq (by simp)
      · rintro ⟨h1, h2, -⟩
        exact absurd (h h1) h2
  · unfold yearChange
    dsimp only
    split_ifs with h
    · constructor
      · intro heq
        exact absurd heq (by simp)
      · intro hor
        rcases hor with h1 | h2
        · exact absurd h1 h.1
        · exact absurd h2 h.2
    · push_neg at h
      constructor
      · intro _
        by_cases h1 : (splitBuckets prices).1 = []
        · exact Or.inl h1
        · exact Or.inr (h h1)
      · intro _
        rfl

/-- Witness for C5 (the iffs applied at a concrete observation list):
January and December observations for one year produce the entry, and a
year without a late-bucket observation produces none. -/
theorem price_change_entry_iff_witness :
    yearChange [(1, 10), (12, 20), (5, 100)] = some 100
    ∧ yearChange [(1, 10), (5, 100)] = none := by
  constructor
  · refine ((price_change_entry_iff [(1, 10), (12, 20), (5, 100)]).2.2.1 100).mpr ?_
    refine ⟨by norm_num [splitBuckets], by norm_num [splitBuckets], ?_⟩
    norm_num [splitBuckets, avg]
  · exact ((price_change_entry_iff [(1, 10), (5, 100)]).2.2.2).mpr
      (by norm_num [splitBuckets])

/-! ### Claim C6: loader failure modes -/

/-- When every record of the stream reads successfully, the record loop
returns `ok`. -/
theorem readCsvGo_ok (parseF : String → Option ℚ) :
    ∀ (results : List (Except String (List String)))
      (acc : List (String × List (ℕ × ℚ))),
    (∀ r ∈ results, ∃ cells, r = .ok cells) →
    ∃ d, readCsvGo parseF results acc = .ok d := by
  intro results
  induction results with
  | nil => exact fun acc _ => ⟨acc, rfl⟩
  | cons r rest ih =>
    intro acc hall
    obtain ⟨cells, rfl⟩ := hall r (List.mem_cons_self _ _)
    exact ih _ fun x hx => hall x (List.mem_cons_of_mem _ hx)

/-- Every value stored by the cell loop is either carried over from the
accumulator or is `parse(cell).unwrap_or(0)` of some cell. -/
theorem buildYearsGo_values (parseF : String → Option ℚ) :
    ∀ (cells : List String) (i : ℕ) (acc : List (ℕ × ℚ)) (p : ℕ × ℚ),
    p ∈ buildYearsGo parseF i cells acc →
    p ∈ acc ∨ ∃ c ∈ cells, p.2 = (parseF c).getD 0 := by
  intro cells
  induction cells with
  | nil => exact fun i acc p hp => Or.inl hp
  | cons c rest ih =>
    intro i acc p hp
    simp only [buildYearsGo] at hp
    rcases ih _ _ _ hp with h | ⟨c', hc', he⟩
    · unfold insertKV at h
      rcases List.mem_cons.mp h with rfl | hmem
      · exact Or.inr ⟨c, List.mem_cons_self _ _, rfl⟩
      · exact Or.inl (List.mem_of_mem_filter hmem)
    · exact Or.inr ⟨c', List.mem_cons_of_mem _ hc', he⟩

/-- C6 (amended): the loader propagates the open failure, and additionally
propagates any per-record reader error; when the file opens and every record
reads successfully it returns `ok`; a row whose ticker cell is empty is
skipped; and every stored value is either a successfully parsed cell or the
0 default of a missing/unparseable cell. -/
theorem loader_failure_modes : ∀ (parseF : String → Option ℚ) (e : String)
    (results : List (Except String (List String))),
    read_csv parseF (.error e) = .error e
    ∧ ((∀ r ∈ results, ∃ cells, r = .ok cells) →
        ∃ d, read_csv parseF (.ok results) = .ok d)
    ∧ (∀ data cells, readCsvStep parseF data ("" :: cells) = data)
    ∧ (∀ cells y v, (buildYears parseF cells).lookup y = some v →
        v = 0 ∨ ∃ c q, c ∈ cells ∧ parseF c = some q ∧ v = q) := by
  intro parseF e results
  refine ⟨rfl, fun h => readCsvGo_ok parseF results [] h, fun data cells => rfl, ?_⟩
  intro cells y v hv
  have hmem := lookup_mem hv
  rcases buildYearsGo_values parseF cells 0 [] (y, v) hmem with h | ⟨c, hc, he⟩
  · simp at h
  · rcases hq : parseF c with _ | q
    · rw [hq] at he
      exact Or.inl he
    · rw [hq] at he
      exact Or.inr ⟨c, q, hc, hq, he⟩

/-- A concrete lenient cell parser for the witnesses: parses the strings
"1" and "2", fails on everything else. -/
def exParse : String → Option ℚ :=
  fun s => if s = "1" then some 1 else if s = "2" then some 2 else none

/-- C6 counterexample: a file that OPENS successfully but whose first record
fails to read (e.g. an inconsistent row length) makes the loader return an
error, refuting "the I/O open failure is the only propagated failure". -/
theorem loader_record_error_eval :
    read_csv exParse (.ok [.error "inconsistent row"]) = .error "inconsistent row" := rfl

/-- Witness for C6 (amended) at a concrete stream. -/
theorem loader_failure_modes_witness :
    read_csv exParse (.error "io") = .error "io"
    ∧ (∃ d, read_csv exParse (.ok [.ok ["A", "1"]]) = .ok d) :=
  ⟨(loader_failure_modes exParse "io" [.ok ["A", "1"]]).1,
   (loader_failure_modes exParse "io" [.ok ["A", "1"]]).2.1
     (by rintro r hr
         rw [List.mem_singleton] at hr
         exact ⟨["A", "1"], hr⟩)⟩

/-! ### Claim C9: a later row with the same ticker overwrites wholesale -/

/-- On an all-ok record stream the record loop is the left fold of
`readCsvStep`. -/
theorem readCsvGo_map_ok (parseF : String → Option ℚ) :
    ∀ (rows : List (List String)) (acc : List (String × List (ℕ × ℚ))),
    readCsvGo parseF (rows.map .ok) acc = .ok (rows.foldl (readCsvStep parseF) acc) := by
  intro rows
  induction rows with
  | nil => exact fun acc => rfl
  | cons r rest ih =>
    intro acc
    simp only [List.map_cons, List.foldl_cons]
    exact ih _

/-- Rows whose ticker differs from `t` never change the binding of `t`. -/
theorem foldl_step_lookup_ne (parseF : String → Option ℚ) (t : String) :
    ∀ (rows : List (List String)) (acc : List (String × List (ℕ × ℚ))),
    (∀ r ∈ rows, r.head?.getD "" ≠ t) →
    (rows.foldl (readCsvStep parseF) acc).lookup t = acc.lookup t := by
  intro rows
  induction rows with
  | nil => exact fun acc _ => rfl
  | cons r rest ih =>
    intro acc hall
    have hr := hall r (List.mem_cons_self _ _)
    simp only [List.foldl_cons]
    rw [ih _ fun x hx => hall x (List.mem_cons_of_mem _ hx)]
    simp only [readCsvStep]
    split_ifs with h
    · rfl
    · exact lookup_insertKV_ne _ _ _ _ fun he => hr he.symm

/-- C9: if a later row carries the same non-empty ticker, the loader keeps
only the year map built from the last such row; everything contributed by
earlier rows for that ticker (here: all of `rows1`) is discarded, not
merged. -/
theorem loader_last_row_wins : ∀ (parseF : String → Option ℚ)
    (rows1 rows2 : List (List String)) (record : List String) (t : String)
    (d : List (String × List (ℕ × ℚ))),
    record.head?.getD "" = t → t ≠ "" →
    (∀ r ∈ rows2, r.head?.getD "" ≠ t) →
    read_csv parseF (.ok ((rows1 ++ record :: rows2).map .ok)) = .ok d →
    d.lookup t = some (buildYears parseF record.tail) := by
  intro parseF rows1 rows2 record t d ht htne hr2 hread
  rw [show read_csv parseF (.ok ((rows1 ++ record :: rows2).map .ok))
      = readCsvGo parseF ((rows1 ++ record :: rows2).map .ok) [] from rfl] at hread
  rw [readCsvGo_map_ok] at hread
  have hd : d = (rows1 ++ record :: rows2).foldl (readCsvStep parseF) [] := by
    injection hread.symm
  rw [hd, List.foldl_append, List.foldl_cons]
  rw [foldl_step_lookup_ne parseF t rows2 _ hr2]
  simp only [readCsvStep, ht]
  rw [if_neg htne]
  exact lookup_insertKV_self _ _ _

/-- The loaded map of the C9 concrete example: the second "A" row won. -/
def exLoaded : List (String × List (ℕ × ℚ)) := [("C", []), ("A", [(2022, 2)])]

/-- Witness for C9: with rows `A,1` then `A,2` then `C`, the final binding
of "A" is the year map of the second row. -/
theorem loader_last_row_wins_witness :
    exLoaded.lookup "A" = some (buildYears exParse ["2"]) :=
  loader_last_row_wins exParse [["A", "1"]] [["C"]] ["A", "2"] "A" exLoaded
    rfl (by decide) (by decide) rfl

/-! ### Claim C10: contiguous year range anchored at 2022 -/

/-- Lookup in the cell loop's accumulator, for cell streams short enough
that the `u32` subtraction `2022 - i` never underflows: the keys written are
exactly the consecutive years `2022 - i` down to `2023 - i - n`, each bound
to the lenient parse of its cell; other keys fall through to the
accumulator. -/
theorem buildYearsGo_lookup (parseF : String → Option ℚ) :
    ∀ (cells : List String) (i : ℕ) (acc : List (ℕ × ℚ)) (y : ℕ),
    i + cells.length ≤ 2023 →
    (buildYearsGo parseF i cells acc).lookup y =
      if 2023 ≤ y + i + cells.length ∧ y + i ≤ 2022 then
        (cells[2022 - i - y]?).map fun c => (parseF c).getD 0
      else acc.lookup y := by
  intro cells
  induction cells with
  | nil =>
    intro i acc y hle
    rw [if_neg (by simp; omega)]
    rfl
  | cons c rest ih =>
    intro i acc y hle
    have hle' : (i + 1) + rest.length ≤ 2023 := by
      simp only [List.length_cons] at hle
      omega
    simp only [buildYearsGo]
    rw [ih (i + 1) _ y hle']
    simp only [List.length_cons]
    by_cases hy : y + i = 2022
    · rw [if_neg (by omega), if_pos (by constructor <;> omega)]
      rw [show (2022 : ℕ) - i - y = 0 from by omega]
      rw [show y = 2022 - i from by omega]
      rw [lookup_insertKV_self]
      simp
    · by_cases hy2 : y + i ≤ 2022
      · by_cases hc : 2023 ≤ y + i + 1 + rest.length
        · rw [if_pos (by constructor <;> omega), if_pos (by constructor <;> omega)]
          rw [show (2022 : ℕ) - i - y = (2022 - (i + 1) - y) + 1 from by omega]
          rw [List.getElem?_cons_succ]
        · rw [if_neg (by omega), if_neg (by omega)]
          exact lookup_insertKV_ne _ _ _ _ (by omega)
      · rw [if_neg (by omega), if_neg (by omega)]
        exact lookup_insertKV_ne _ _ _ _ (by omega)

/-- C10: a loaded row with `n ≤ 2023` data cells yields a year map whose
entries are exactly the `n` consecutive years `2022` down to `2023 − n` —
year `2022 − i` bound to the lenient parse of cell `i`, every other year
absent — and an unparseable cell is present as a `0` entry. -/
theorem loader_year_anchoring : ∀ (parseF : String → Option ℚ)
    (cells : List String) (y : ℕ),
    cells.length ≤ 2023 →
    ((2023 ≤ y + cells.length ∧ y ≤ 2022) →
      (buildYears parseF cells).lookup y =
        (cells[2022 - y]?).map fun c => (parseF c).getD 0)
    ∧ ((y + cells.length < 2023 ∨ 2022 < y) →
      (buildYears parseF cells).lookup y = none)
    ∧ (∀ i c, cells[i]? = some c → parseF c = none →
      (buildYears parseF cells).lookup (2022 - i) = some 0) := by
  intro parseF cells y hlen
  refine ⟨?_, ?_, ?_⟩
  · intro hy
    rw [buildYears, buildYearsGo_lookup parseF cells 0 [] y (by omega),
      if_pos (by constructor <;> omega)]
  · intro hy
    rw [buildYears, buildYearsGo_lookup parseF cells 0 [] y (by omega),
      if_neg (by omega)]
    rfl
  · intro i c hc hpf
    have hi : i < cells.length := by
      by_contra hcon
      rw [List.getElem?_eq_none (by omega)] at hc
      exact absurd hc (by simp)
    rw [buildYears, buildYearsGo_lookup parseF cells 0 [] (2022 - i) (by omega),
      if_pos (by constructor <;> omega)]
    rw [show (2022 : ℕ) - 0 - (2022 - i) = i from by omega, hc]
    simp [hpf]

/-- Witness for C10: two cells, the second unparseable, give entries for
exactly 2022 and 2021, the latter defaulted to 0. -/
theorem loader_year_anchoring_witness :
    (buildYears exParse ["1", "zzz"]).lookup 2022 =
      ((["1", "zzz"] : List String)[2022 - 2022]?).map (fun c => (exParse c).getD 0)
    ∧ (buildYears exParse ["1", "zzz"]).lookup 2020 = none
    ∧ (buildYears exParse ["1", "zzz"]).lookup (2022 - 1) = some 0 :=
  ⟨(loader_year_anchoring exParse ["1", "zzz"] 2022 (by norm_num)).1
      (by constructor <;> norm_num),
   (loader_year_anchoring exParse ["1", "zzz"] 2020 (by norm_num)).2.1
      (by norm_num),
   (loader_year_anchoring exParse ["1", "zzz"] 2020 (by norm_num)).2.2 1 "zzz"
      rfl rfl⟩

/-! ### Claim C1: the delta pass does not sort by year -/

/-- C1: evaluation of the combine stage at a year map whose iteration order
is `(2022, …), (2021, …)` — a legal `HashMap` order.  The code computes the
deltas along the iteration order without sorting: the year-2021 record (the
EARLIEST year) receives `change_in_revenue = some (1 − 2) = some (−1)`,
taken against year 2022, while the 2022 record keeps `none`; under the
claimed sort-ascending semantics 2021 would keep `none` and 2022 would get
`some 1`. -/
theorem delta_unsorted_eval :
    (combine_stock_data [("A", [(2022, 1), (2021, 1)])] [] [] []
        [("A", [(2022, 2), (2021, 1)])] []).map
        (fun p => (p.1, p.2.map fun r => (r.year, r.change_in_revenue)))
      = [("A", [(2022, none), (2021, some (-1))])] := by
  simp [combine_stock_data, applyDeltas, applyDeltasAux, setDeltas, mkStockData,
    getOr0, List.lookup]
  norm_num

/-! ### Claim C7: run-to-run determinism -/

/-- The assets map of the C7 counterexample with the years enumerated in a
different (equally legal) `HashMap` iteration order than `exAssets`. -/
def exAssetsShuffled : MetricMap := [("A", [(2021, 1), (2020, 1), (2022, 1)])]

/-- C7 counterexample: the same map contents (the year lists are
permutations of each other, as the enumerations of one `HashMap` are)
produce different feature matrices when enumerated in different orders, so
the transform from file contents to output is not a function of the
contents alone. -/
theorem pipeline_order_counterexample :
    ([((2020 : ℕ), (1 : ℚ)), (2021, 1), (2022, 1)]).Perm [(2021, 1), (2020, 1), (2022, 1)]
    ∧ exAssets = [("A", [(2020, 1), (2021, 1), (2022, 1)])]
    ∧ exAssetsShuffled = [("A", [(2021, 1), (2020, 1), (2022, 1)])]
    ∧ fullPipeline exAssets [] [] [] exRevenue []
        ≠ fullPipeline exAssetsShuffled [] [] [] exRevenue [] := by
  refine ⟨List.Perm.swap _ _ _, rfl, rfl, ?_⟩
  have h1 : fullPipeline exAssets [] [] [] exRevenue []
      = ([[20, 0, 0, 0, 0, 0]], [2]) := by
    simp [fullPipeline, prepare_dataset, preparePairs, prepareTicker,
      process_stock_data, combine_stock_data, calculate_price_changes, mkStockData,
      getOr0, applyDeltas, applyDeltasAux, setDeltas, featureRow, categorizeQ,
      categorize_price_change, FVal.flt, exAssets, exRevenue, List.lookup, List.range']
    norm_num
  have h2 : fullPipeline exAssetsShuffled [] [] [] exRevenue []
      = ([[30, 0, 0, 0, 0, 0]], [2]) := by
    simp [fullPipeline, prepare_dataset, preparePairs, prepareTicker,
      process_stock_data, combine_stock_data, calculate_price_changes, mkStockData,
      getOr0, applyDeltas, applyDeltasAux, setDeltas, featureRow, categorizeQ,
      categorize_price_change, FVal.flt, exAssetsShuffled, exRevenue, List.lookup,
      List.range']
    norm_num
  intro h
  rw [h1, h2] at h
  norm_num at h

/-- C7 (amended): with the map enumeration orders made explicit, the
transform is a function of contents plus orders; permuting the cross-ticker
enumeration order permutes the emitted (feature row, label) pairs without
changing any pair, whereas (per the counterexample) permuting a ticker's
year order can change the values themselves. -/
theorem pipeline_ticker_order_perm : ∀ d1 d2 : List (String × List StockData),
    d1.Perm d2 → (preparePairs d1).Perm (preparePairs d2) := by
  intro d1 d2 h
  unfold preparePairs
  exact (h.map _).flatten

/-- Witness for C7 (amended): swapping two tickers permutes the pairs. -/
theorem pipeline_ticker_order_perm_witness :
    (preparePairs [("A", [exRec0, exRec1, exRec2]), ("B", [])]).Perm
      (preparePairs [("B", []), ("A", [exRec0, exRec1, exRec2])]) :=
  pipeline_ticker_order_perm _ _ (List.Perm.swap _ _ _)

end StockPipeline
